import Mathlib

/-!
Shallow embedding of the `cc-asset-loan` chaincode
(`src/chaincode/smartcontract.go` plus the `contract.go` entry point, which
is pure wiring) and proofs about it.

Modelling conventions:
* The Fabric world state (the Ledger Port) is external to the repository; it
  is modelled from the spec as a flat string-keyed association list holding
  serialized asset records, with `getState` / `putState` / `delState`
  mirroring `GetState` / `PutState` / `DelState` of the chaincode stub.
* Go's `encoding/json` marshalling of the `Asset` struct is modelled at the
  level of ordered key/value objects (`JObj`): `json.Marshal` emits the
  exported fields in struct order under their `json:"..."` tags and omits
  the unexported `state` field; `json.Unmarshal` fills fields by tag name,
  ignores unknown keys, fails on a type mismatch, and never touches the
  unexported `state` field (which therefore stays at its zero value).
* The caller's identity is external: `submittingClientIdentity` in the source
  calls `ctx.GetClientIdentity().GetID()` and base64-decodes the result.  It
  is modelled as receiving the already-decoded outcome of that call:
  `some client` for a successful resolution, `none` for a failure.
* Each chaincode operation is embedded as a function from the ledger (and its
  other arguments) to the ledger after the operation together with its
  error/result.  Operations that issue no `PutState`/`DelState` calls return
  the ledger unchanged.
-/

/-- A JSON value as it appears in a serialized `Asset` record: a string, an
integer, or an array of strings (the `paymentHashes` field). -/
inductive JValue where
  | str (s : String)
  | int (n : Int)
  | arr (xs : List String)
deriving DecidableEq

/-- A JSON object: an ordered list of key/value pairs, as produced by
`json.Marshal` on a Go struct. -/
abbrev JObj := List (String × JValue)

/-- Modelled from the spec: the Ledger Port's world state, a flat
string-to-record key/value store (the external Fabric stub's state). -/
abbrev Ledger := List (String × JObj)

/-- Modelled from the spec: the Ledger Port's `get(key)`, i.e. the stub's
`GetState`: returns the stored value, or `none` when the key is absent. -/
def getState : Ledger → String → Option JObj
  | [], _ => none
  | (k', v) :: rest, k => if k' = k then some v else getState rest k

/-- Modelled from the spec: the Ledger Port's `put(key, bytes)`, i.e. the
stub's `PutState`: an upsert that replaces the value stored under the key or
adds the key when absent. -/
def putState : Ledger → String → JObj → Ledger
  | [], k, v => [(k, v)]
  | (k', v') :: rest, k, v =>
      if k' = k then (k, v) :: rest else (k', v') :: putState rest k v

/-- Modelled from the spec: the Ledger Port's `delete(key)`, i.e. the stub's
`DelState`: removes the key from the world state. -/
def delState : Ledger → String → Ledger
  | [], _ => []
  | (k', v') :: rest, k => if k' = k then delState rest k else (k', v') :: delState rest k

/-- The Go type `State uint` of `smartcontract.go`. -/
abbrev State := Nat

/-- `ISSUED State = iota + 1`: state for when a loan asset has been issued. -/
def ISSUED : State := 1

/-- `PENDING`: state for when a loan asset is pending. -/
def PENDING : State := 2

/-- `TRADING`: state for when a loan asset is trading. -/
def TRADING : State := 3

/-- `REDEEMED`: state for when a loan asset has been redeemed. -/
def REDEEMED : State := 4

/-- The `names` table of `State.String` in `smartcontract.go`. -/
def stateNames : List String := ["ISSUED", "PENDING", "TRADING", "REDEEMED"]

/-- The `String` method of `State` in `smartcontract.go`: out-of-range states
print as `"UNKNOWN"`, in-range states index the `names` table at `state - 1`.
The Go expression `names[state-1]` panics when out of bounds; the panic is
modelled by the default value of `List.getD`, and the development proves the
default is never reached. -/
def stateString (state : State) : String :=
  if state < ISSUED ∨ REDEEMED < state then "UNKNOWN"
  else stateNames.getD (state - 1) "INDEX_OUT_OF_RANGE"

/-- The `Asset` struct of `smartcontract.go`.  Field names follow the Go
declaration; the serialized key of each exported field is given by its
`json:"..."` tag (`ID ↦ assetID`, `BorrowerAddress ↦ senderAddress`, ...).
`state` is unexported in Go and hence invisible to `encoding/json`. -/
structure Asset where
  ID : String
  Lender : String
  Borrower : String
  StartDate : Int
  Amount : Int
  EndDate : Int
  BorrowerAddress : String
  InvestorAddress : String
  PaymentHashes : List String
  state : State
deriving DecidableEq

/-- The zero value of the Go `Asset` struct: empty strings, zero ints, a nil
slice, and the zero `State`. -/
def zeroAsset : Asset :=
  { ID := "", Lender := "", Borrower := "", StartDate := 0, Amount := 0,
    EndDate := 0, BorrowerAddress := "", InvestorAddress := "",
    PaymentHashes := [], state := 0 }

/-- `GetState` method of `Asset` (the entity's state accessor). -/
def Asset.GetState (asset : Asset) : State := asset.state

/-- `SetIssued` returns the state to issued. -/
def setIssued (asset : Asset) : Asset := { asset with state := ISSUED }

/-- `SetPending` sets the state to pending. -/
def setPending (asset : Asset) : Asset := { asset with state := PENDING }

/-- `SetTrading` sets the state to trading. -/
def setTrading (asset : Asset) : Asset := { asset with state := TRADING }

/-- `SetRedeemed` sets the state to redeemed. -/
def setRedeemed (asset : Asset) : Asset := { asset with state := REDEEMED }

/-- Modelled from the spec: `json.Marshal` on `Asset` (Go standard library,
not under `src/`).  It emits the exported fields in struct declaration order
under their `json:"..."` tags and omits the unexported `state` field. -/
def marshalAsset (a : Asset) : JObj :=
  [("assetID", .str a.ID),
   ("lender", .str a.Lender),
   ("borrower", .str a.Borrower),
   ("startDate", .int a.StartDate),
   ("amount", .int a.Amount),
   ("endDate", .int a.EndDate),
   ("senderAddress", .str a.BorrowerAddress),
   ("investorAddress", .str a.InvestorAddress),
   ("paymentHashes", .arr a.PaymentHashes)]

/-- One step of `json.Unmarshal` into an `Asset`: a known key with a value of
the right type sets the corresponding field, a known key with a value of the
wrong type is a decoding error, an unknown key is ignored.  The unexported
`state` field is never assigned. -/
def setField (a : Asset) : String × JValue → Option Asset
  | ("assetID", .str s) => some { a with ID := s }
  | ("assetID", _) => none
  | ("lender", .str s) => some { a with Lender := s }
  | ("lender", _) => none
  | ("borrower", .str s) => some { a with Borrower := s }
  | ("borrower", _) => none
  | ("startDate", .int n) => some { a with StartDate := n }
  | ("startDate", _) => none
  | ("amount", .int n) => some { a with Amount := n }
  | ("amount", _) => none
  | ("endDate", .int n) => some { a with EndDate := n }
  | ("endDate", _) => none
  | ("senderAddress", .str s) => some { a with BorrowerAddress := s }
  | ("senderAddress", _) => none
  | ("investorAddress", .str s) => some { a with InvestorAddress := s }
  | ("investorAddress", _) => none
  | ("paymentHashes", .arr xs) => some { a with PaymentHashes := xs }
  | ("paymentHashes", _) => none
  | (_, _) => some a

/-- Modelled from the spec: `json.Unmarshal` of a serialized record into an
`Asset` (Go standard library, not under `src/`): starts from the zero value
and applies each key/value pair in order. -/
def unmarshalAsset (obj : JObj) : Option Asset :=
  obj.foldlM setField zeroAsset

/-- The errors the contract's operations report, one constructor per distinct
error condition produced in `smartcontract.go` (`fmt.Errorf` values in the
source). -/
inductive CCErr where
  | alreadyExists (id : String)
  | notFound (id : String)
  | identityError
  | unmarshalError
deriving DecidableEq

/-- `submittingClientIdentity` of `smartcontract.go`.  The call to
`ctx.GetClientIdentity().GetID()` and the base64 decode act on external
transport data; `ident` is the combined outcome of that external resolution
(`some client` when it succeeds, `none` when either step fails). -/
def submittingClientIdentity (ident : Option String) : Except CCErr String :=
  match ident with
  | some s => .ok s
  | none => .error .identityError

/-- `AssetExists` of `smartcontract.go`: reads the id from the world state
and reports whether a value is stored there.  It issues no writes, so the
ledger is returned unchanged.  (The Go error return is only ever non-nil on a
storage-layer fault of the external stub, which the pure ledger model does
not produce.) -/
def AssetExists (l : Ledger) (id : String) : Ledger × Bool :=
  (l, (getState l id).isSome)

/-- `CreateAsset` of `smartcontract.go`: rejects an id that already exists,
otherwise builds the asset from the arguments, forces `ISSUED`, resolves the
caller identity into `Lender`, marshals and writes under `id`. -/
def CreateAsset (ident : Option String) (l : Ledger) (id : String)
    (start stop amount : Int) : Ledger × Option CCErr :=
  if (AssetExists l id).2 then
    (l, some (.alreadyExists id))
  else
    let asset : Asset :=
      { zeroAsset with ID := id, StartDate := start, EndDate := stop, Amount := amount }
    let asset := setIssued asset
    match submittingClientIdentity ident with
    | .error e => (l, some e)
    | .ok client =>
        let asset := { asset with Lender := client }
        (putState l id (marshalAsset asset), none)

/-- `ReadAsset` of `smartcontract.go`: fails when the id is absent, otherwise
unmarshals the stored record.  It issues no writes. -/
def ReadAsset (l : Ledger) (id : String) : Ledger × Except CCErr Asset :=
  match getState l id with
  | none => (l, .error (.notFound id))
  | some obj =>
      match unmarshalAsset obj with
      | none => (l, .error .unmarshalError)
      | some asset => (l, .ok asset)

/-- `DeleteAsset` of `smartcontract.go`: checks existence first and fails with
not-found before issuing any delete; otherwise removes the key. -/
def DeleteAsset (l : Ledger) (id : String) : Ledger × Option CCErr :=
  if (AssetExists l id).2 then
    (delState l id, none)
  else
    (l, some (.notFound id))

/-- `TransferAsset` of `smartcontract.go`: reads the asset (propagating the
read's error), overwrites the borrower field with `newOwner`, re-marshals and
writes back.  The source line is `asset.Owner = newOwner`, naming a field the
`Asset` struct does not declare (a Go compile error); following the spec's
resolution of that slip, the assignment is embedded as targeting `Borrower`. -/
def TransferAsset (l : Ledger) (id : String) (newOwner : String) :
    Ledger × Option CCErr :=
  match (ReadAsset l id).2 with
  | .error e => (l, some e)
  | .ok asset =>
      let asset := { asset with Borrower := newOwner }
      (putState l id (marshalAsset asset), none)

/-- Insertion of one ledger entry into a key-sorted list, used to model the
key order in which the stub's `GetStateByRange` yields entries. -/
def insertByKey (e : String × JObj) : List (String × JObj) → List (String × JObj)
  | [] => [e]
  | x :: xs => if e.1 ≤ x.1 then e :: x :: xs else x :: insertByKey e xs

/-- The entries of the world state in key order: what the range scan
`GetStateByRange("", "")` iterates over. -/
def sortByKey (l : Ledger) : List (String × JObj) :=
  l.foldr insertByKey []

/-- The unmarshalling loop of `GetAllAssets`: decodes every scanned value,
aborting on the first record that fails to decode. -/
def unmarshalAll : List (String × JObj) → Except CCErr (List Asset)
  | [] => .ok []
  | kv :: rest =>
      match unmarshalAsset kv.2 with
      | none => .error .unmarshalError
      | some a =>
          match unmarshalAll rest with
          | .error e => .error e
          | .ok tail => .ok (a :: tail)

/-- `GetAllAssets` of `smartcontract.go`: full-range scan over the world
state, unmarshalling every stored value.  It issues no writes. -/
def GetAllAssets (l : Ledger) : Ledger × Except CCErr (List Asset) :=
  (l, unmarshalAll (sortByKey l))

/-- The fixed seed batch of `InitLedger` in `smartcontract.go`: six assets
with preset ids, dates and amounts (all other fields at their zero values). -/
def seedAssets : List Asset :=
  [{ zeroAsset with ID := "asset1", StartDate := 20210101, EndDate := 20220101, Amount := 300 },
   { zeroAsset with ID := "asset2", StartDate := 20210101, EndDate := 20220101, Amount := 400 },
   { zeroAsset with ID := "asset3", StartDate := 20210101, EndDate := 20220101, Amount := 500 },
   { zeroAsset with ID := "asset4", StartDate := 20210101, EndDate := 20220101, Amount := 600 },
   { zeroAsset with ID := "asset5", StartDate := 20210101, EndDate := 20220101, Amount := 700 },
   { zeroAsset with ID := "asset6", StartDate := 20210101, EndDate := 20220101, Amount := 800 }]

/-- The loop body of `InitLedger`: for each seed asset in order, force
`ISSUED`, resolve the caller identity (one resolver call per iteration, the
`n`-th call's outcome being `idents n`), set `Lender`, marshal and write;
abort the remaining iterations on the first resolution failure, keeping the
writes already issued. -/
def initLoop (idents : Nat → Option String) :
    List Asset → Nat → Ledger → Ledger × Option CCErr
  | [], _, l => (l, none)
  | a :: rest, n, l =>
      let a := setIssued a
      match submittingClientIdentity (idents n) with
      | .error e => (l, some e)
      | .ok client =>
          let a := { a with Lender := client }
          initLoop idents rest (n + 1) (putState l a.ID (marshalAsset a))

/-- `InitLedger` of `smartcontract.go` (the seed-asset initialization): runs
the seed loop over the fixed batch. -/
def InitLedger (idents : Nat → Option String) (l : Ledger) :
    Ledger × Option CCErr :=
  initLoop idents seedAssets 0 l

/-- The ledger after the first `k` seed writes of `InitLedger` under resolved
identity `c`: each write stores, under the seed's id, the marshalling of the
seed forced to `ISSUED` with `Lender := c`. -/
def seedUpTo (c : String) (k : Nat) (l : Ledger) : Ledger :=
  (seedAssets.take k).foldl
    (fun acc a => putState acc a.ID (marshalAsset { setIssued a with Lender := c })) l

/-- A serialized record is well-formed when it has exactly the canonical
shape `json.Marshal` produces for an `Asset`: the nine public keys in struct
declaration order, each with a value of the declared type. -/
def wellFormedRecord : JObj → Bool
  | [("assetID", .str _), ("lender", .str _), ("borrower", .str _),
     ("startDate", .int _), ("amount", .int _), ("endDate", .int _),
     ("senderAddress", .str _), ("investorAddress", .str _),
     ("paymentHashes", .arr _)] => true
  | _ => false

/-- A concrete well-formed serialized record, used to instantiate theorems. -/
def sampleRecord : JObj :=
  [("assetID", .str "loan-7"), ("lender", .str "lenderA"),
   ("borrower", .str "borrowerB"), ("startDate", .int 20230101),
   ("amount", .int 1000), ("endDate", .int 20240101),
   ("senderAddress", .str "addr1"), ("investorAddress", .str "addr2"),
   ("paymentHashes", .arr ["h1", "h2"])]

/-- The ledger states reachable from the empty world state through the
contract's operations, taking the ledger each call leaves behind whether the
call succeeded or failed (a failed call before its write leaves the ledger
as it was; a failed `InitLedger` keeps the seed writes already issued). -/
inductive Reach : Ledger → Prop where
  | empty : Reach []
  | create (ident : Option String) (l : Ledger) (id : String)
      (start stop amount : Int) :
      Reach l → Reach (CreateAsset ident l id start stop amount).1
  | del (l : Ledger) (id : String) : Reach l → Reach (DeleteAsset l id).1
  | transfer (l : Ledger) (id nb : String) :
      Reach l → Reach (TransferAsset l id nb).1
  | seed (idents : Nat → Option String) (l : Ledger) :
      Reach l → Reach (InitLedger idents l).1

/-! ### Lemmas about the ledger port -/

theorem getState_putState_self (l : Ledger) (k : String) (v : JObj) :
    getState (putState l k v) k = some v := by
  induction l with
  | nil => simp [putState, getState]
  | cons e rest ih =>
      obtain ⟨k', v'⟩ := e
      by_cases hk : k' = k <;> simp [putState, getState, hk, ih]

theorem getState_putState_ne (l : Ledger) (k k' : String) (v : JObj)
    (h : k' ≠ k) : getState (putState l k v) k' = getState l k' := by
  induction l with
  | nil => simp [putState, getState, Ne.symm h]
  | cons e rest ih =>
      obtain ⟨k₀, v₀⟩ := e
      by_cases hk : k₀ = k
      · subst hk
        simp [putState, getState, h, Ne.symm h]
      · by_cases hk' : k₀ = k' <;> simp [putState, getState, h, hk, hk', ih]

theorem getState_delState_self (l : Ledger) (k : String) :
    getState (delState l k) k = none := by
  induction l with
  | nil => simp [delState, getState]
  | cons e rest ih =>
      obtain ⟨k₀, v₀⟩ := e
      by_cases hk : k₀ = k <;> simp [delState, getState, hk, ih]

theorem getState_delState_ne (l : Ledger) (k k' : String) (h : k' ≠ k) :
    getState (delState l k) k' = getState l k' := by
  induction l with
  | nil => simp [delState, getState]
  | cons e rest ih =>
      obtain ⟨k₀, v₀⟩ := e
      by_cases hk : k₀ = k
      · subst hk
        simp [delState, getState, Ne.symm h, ih]
      · by_cases hk' : k₀ = k' <;> simp [delState, getState, h, hk, hk', ih]

theorem delState_sublist (l : Ledger) (k : String) :
    List.Sublist (delState l k) l := by
  induction l with
  | nil => simp [delState]
  | cons e rest ih =>
      obtain ⟨k₀, v₀⟩ := e
      by_cases hk : k₀ = k
      · simpa [delState, hk] using ih.trans (List.sublist_cons_self _ _)
      · simpa [delState, hk] using ih.cons₂ (k₀, v₀)

theorem mem_keys_putState (l : Ledger) (k x : String) (v : JObj)
    (h : x ∈ (putState l k v).map Prod.fst) :
    x ∈ l.map Prod.fst ∨ x = k := by
  induction l with
  | nil =>
      right
      simpa [putState] using h
  | cons e rest ih =>
      obtain ⟨k₀, v₀⟩ := e
      by_cases hk : k₀ = k
      · subst hk
        left
        simpa [putState] using h
      · simp only [putState, hk, if_false, List.map_cons, List.mem_cons] at h
        rcases h with h | h
        · exact Or.inl (by simp [h])
        · rcases ih h with h' | h'
          · exact Or.inl (by simp [h'])
          · exact Or.inr h'

theorem keys_putState_nodup (l : Ledger) (k : String) (v : JObj)
    (h : (l.map Prod.fst).Nodup) : ((putState l k v).map Prod.fst).Nodup := by
  induction l with
  | nil => simp [putState]
  | cons e rest ih =>
      obtain ⟨k₀, v₀⟩ := e
      simp only [List.map_cons, List.nodup_cons] at h
      by_cases hk : k₀ = k
      · subst hk
        simpa [putState] using h
      · have hput : putState ((k₀, v₀) :: rest) k v = (k₀, v₀) :: putState rest k v := by
          simp [putState, hk]
        rw [hput, List.map_cons, List.nodup_cons]
        refine ⟨?_, ih h.2⟩
        intro hmem
        rcases mem_keys_putState rest k k₀ v hmem with h' | h'
        · exact h.1 h'
        · exact hk h'

theorem keys_delState_nodup (l : Ledger) (k : String)
    (h : (l.map Prod.fst).Nodup) : ((delState l k).map Prod.fst).Nodup :=
  h.sublist ((delState_sublist l k).map Prod.fst)

/-! ### Lemmas about the serialization model -/

theorem unmarshal_marshal (a : Asset) :
    unmarshalAsset (marshalAsset a) = some { a with state := 0 } := rfl

theorem setField_state (a a' : Asset) (kv : String × JValue)
    (h : setField a kv = some a') : a'.state = a.state := by
  unfold setField at h
  split at h <;>
    first
      | exact Option.noConfusion h
      | (injection h with h; subst h; rfl)

theorem foldl_setField_state (obj : JObj) :
    ∀ a₀ a : Asset, obj.foldlM setField a₀ = some a → a.state = a₀.state := by
  induction obj with
  | nil =>
      intro a₀ a h
      rw [List.foldlM_nil] at h
      injection h with h
      subst h
      rfl
  | cons kv rest ih =>
      intro a₀ a h
      rw [List.foldlM_cons] at h
      cases hsf : setField a₀ kv with
      | none =>
          rw [hsf] at h
          exact Option.noConfusion h
      | some a₁ =>
          rw [hsf] at h
          exact (ih a₁ a h).trans (setField_state a₀ a₁ kv hsf)

theorem unmarshal_state_eq_zero (obj : JObj) (a : Asset)
    (h : unmarshalAsset obj = some a) : a.state = 0 :=
  foldl_setField_state obj zeroAsset a h

theorem createAsset_ok (c : String) (l : Ledger) (id : String)
    (start stop amount : Int) (habs : getState l id = none) :
    CreateAsset (some c) l id start stop amount =
      (putState l id (marshalAsset
        { ID := id, Lender := c, Borrower := "", StartDate := start,
          Amount := amount, EndDate := stop, BorrowerAddress := "",
          InvestorAddress := "", PaymentHashes := [], state := ISSUED }), none) := by
  simp [CreateAsset, AssetExists, habs, submittingClientIdentity, setIssued, zeroAsset]

/-! ### Claim theorems -/

/-- C4: the serialized representation of an `Asset` consists exactly of the
keys `assetID, lender, borrower, startDate, amount, endDate, senderAddress,
investorAddress, paymentHashes`, in that order; neither the internal `state`
field nor its metadata name `currentState` is part of the serialized shape,
for every `Asset` value. -/
theorem serializedShape_c4 (a : Asset) :
    (marshalAsset a).map Prod.fst =
      ["assetID", "lender", "borrower", "startDate", "amount", "endDate",
       "senderAddress", "investorAddress", "paymentHashes"] ∧
    "state" ∉ (marshalAsset a).map Prod.fst ∧
    "currentState" ∉ (marshalAsset a).map Prod.fst := by
  refine ⟨rfl, ?_, ?_⟩ <;> simp [marshalAsset]

/-- C7: the `State`-to-string conversion is total: each of the four defined
states maps to its fixed display name, every value outside the defined range
maps to `"UNKNOWN"`, and under the range guard the name-table lookup index is
always in bounds (so the Go indexing expression cannot panic). -/
theorem stateString_c7 (s : Nat) :
    stateString ISSUED = "ISSUED" ∧ stateString PENDING = "PENDING" ∧
    stateString TRADING = "TRADING" ∧ stateString REDEEMED = "REDEEMED" ∧
    ((s < ISSUED ∨ REDEEMED < s) → stateString s = "UNKNOWN") ∧
    (¬(s < ISSUED ∨ REDEEMED < s) → s - 1 < stateNames.length) := by
  refine ⟨rfl, rfl, rfl, rfl, ?_, ?_⟩
  · intro h
    simp [stateString, h]
  · intro h
    simp only [ISSUED, REDEEMED, not_or, not_lt] at h
    have h1 : (1 : Nat) ≤ s := h.1
    have h2 : s ≤ (4 : Nat) := h.2
    simp only [stateNames, List.length_cons, List.length_nil]
    omega

theorem stateString_c7_witness :
    stateString 0 = "UNKNOWN" ∧ stateString 9 = "UNKNOWN" ∧
    3 - 1 < stateNames.length :=
  ⟨(stateString_c7 0).2.2.2.2.1 (by decide),
   (stateString_c7 9).2.2.2.2.1 (by decide),
   (stateString_c7 3).2.2.2.2.2 (by decide)⟩

/-- C5: for every well-formed serialized `Asset` record, unmarshalling it and
re-marshalling the result reproduces the record exactly (the internal `state`
field plays no part, as it is neither written nor read by serialization). -/
theorem roundTrip_c5 (r : JObj) (h : wellFormedRecord r = true) :
    Option.map marshalAsset (unmarshalAsset r) = some r := by
  unfold wellFormedRecord at h
  split at h
  · rfl
  · exact absurd h (by simp)

theorem roundTrip_c5_witness :
    wellFormedRecord sampleRecord = true ∧
    Option.map marshalAsset (unmarshalAsset sampleRecord) = some sampleRecord :=
  ⟨rfl, roundTrip_c5 sampleRecord rfl⟩

/-- C3: calling `CreateAsset` twice with the same id fails the second time
with the already-exists error, and the second call leaves the ledger exactly
as the first call left it (the error return happens before any write). -/
theorem createTwice_c3 (i₁ i₂ : Option String) (l l₁ : Ledger) (id : String)
    (s₁ e₁ a₁ s₂ e₂ a₂ : Int)
    (h : CreateAsset i₁ l id s₁ e₁ a₁ = (l₁, none)) :
    CreateAsset i₂ l₁ id s₂ e₂ a₂ = (l₁, some (CCErr.alreadyExists id)) := by
  by_cases hex : (getState l id).isSome
  · simp [CreateAsset, AssetExists, hex] at h
  · cases i₁ with
    | none => simp [CreateAsset, AssetExists, submittingClientIdentity, hex] at h
    | some c =>
        have hl := congrArg Prod.fst h
        simp only [CreateAsset, AssetExists, submittingClientIdentity, hex,
          Bool.false_eq_true, if_false] at hl
        have hkey : (getState l₁ id).isSome = true := by
          rw [← hl]
          simp [getState_putState_self]
        simp [CreateAsset, AssetExists, hkey]

theorem createTwice_c3_witness :
    CreateAsset (some "c2") (CreateAsset (some "c1") [] "a" 1 2 3).1 "a" 4 5 6 =
      ((CreateAsset (some "c1") [] "a" 1 2 3).1, some (CCErr.alreadyExists "a")) :=
  createTwice_c3 (some "c1") (some "c2") [] (CreateAsset (some "c1") [] "a" 1 2 3).1
    "a" 1 2 3 4 5 6 rfl

/-- C6: deleting an absent id fails with not-found and returns the ledger
completely unchanged (existence is checked before any delete is issued);
deleting a present id succeeds, removes exactly that key, and leaves every
other key's value as it was. -/
theorem delete_c6 (l : Ledger) (id : String) :
    (getState l id = none → DeleteAsset l id = (l, some (CCErr.notFound id))) ∧
    (∀ r : JObj, getState l id = some r →
      (DeleteAsset l id).2 = none ∧
      getState (DeleteAsset l id).1 id = none ∧
      ∀ k, k ≠ id → getState (DeleteAsset l id).1 k = getState l k) := by
  constructor
  · intro h
    simp [DeleteAsset, AssetExists, h]
  · intro r h
    refine ⟨?_, ?_, ?_⟩
    · simp [DeleteAsset, AssetExists, h]
    · simp [DeleteAsset, AssetExists, h, getState_delState_self]
    · intro k hk
      simp only [DeleteAsset, AssetExists, h, Option.isSome_some, if_true]
      exact getState_delState_ne l id k hk

theorem delete_c6_witness :
    DeleteAsset [] "ghost" = ([], some (CCErr.notFound "ghost")) ∧
    (DeleteAsset [("a", marshalAsset zeroAsset)] "a").2 = none ∧
    getState (DeleteAsset [("a", marshalAsset zeroAsset)] "a").1 "a" = none ∧
    getState (DeleteAsset [("a", marshalAsset zeroAsset)] "a").1 "b" =
      getState [("a", marshalAsset zeroAsset)] "b" :=
  ⟨(delete_c6 [] "ghost").1 rfl,
   ((delete_c6 [("a", marshalAsset zeroAsset)] "a").2 (marshalAsset zeroAsset) rfl).1,
   ((delete_c6 [("a", marshalAsset zeroAsset)] "a").2 (marshalAsset zeroAsset) rfl).2.1,
   ((delete_c6 [("a", marshalAsset zeroAsset)] "a").2 (marshalAsset zeroAsset) rfl).2.2
     "b" (by decide)⟩

/-- C10: each operation touches at most its own key: `CreateAsset`,
`DeleteAsset` and `TransferAsset` leave the value of every key other than
their id unchanged, and the read-only operations `ReadAsset`, `AssetExists`
and `GetAllAssets` issue no writes and leave the entire ledger unchanged. -/
theorem frame_c10 (ident : Option String) (l : Ledger) (id k nb : String)
    (start stop amount : Int) (hk : k ≠ id) :
    getState (CreateAsset ident l id start stop amount).1 k = getState l k ∧
    getState (DeleteAsset l id).1 k = getState l k ∧
    getState (TransferAsset l id nb).1 k = getState l k ∧
    (ReadAsset l id).1 = l ∧ (AssetExists l id).1 = l ∧ (GetAllAssets l).1 = l := by
  refine ⟨?_, ?_, ?_, ?_, rfl, rfl⟩
  · unfold CreateAsset
    by_cases hex : (AssetExists l id).2
    · simp [hex]
    · cases ident with
      | none => simp [hex, submittingClientIdentity]
      | some c =>
          simp only [hex, submittingClientIdentity, Bool.false_eq_true, if_false]
          exact getState_putState_ne l id k _ hk
  · unfold DeleteAsset
    by_cases hex : (AssetExists l id).2
    · simp only [hex, if_true]
      exact getState_delState_ne l id k hk
    · simp [hex]
  · unfold TransferAsset
    cases hr : (ReadAsset l id).2 with
    | error e => rfl
    | ok asset => exact getState_putState_ne l id k _ hk
  · unfold ReadAsset
    cases hg : getState l id with
    | none => rfl
    | some obj =>
        cases hu : unmarshalAsset obj with
        | none => simp [hu]
        | some a => simp [hu]

theorem frame_c10_witness :
    getState (CreateAsset (some "c") [] "a" 1 2 3).1 "b" = getState [] "b" ∧
    getState (DeleteAsset [] "a").1 "b" = getState [] "b" ∧
    getState (TransferAsset [] "a" "x").1 "b" = getState [] "b" ∧
    (ReadAsset [] "a").1 = [] ∧ (AssetExists [] "a").1 = [] ∧
    (GetAllAssets []).1 = [] :=
  frame_c10 (some "c") [] "a" "b" "x" 1 2 3 (by decide)

/-- C2 counterexample: creating `loan-7` under identity `lenderA` and reading
it back yields an asset whose `state` is the zero value `0`, not `ISSUED`:
the `state` field is not serialized, so the claimed `state == ISSUED` fails
on the code (the `Lender` part does hold). -/
theorem createRead_c2_counterexample :
    (ReadAsset (CreateAsset (some "lenderA") [] "loan-7" 20230101 20240101 1000).1
        "loan-7").2 =
      .ok { ID := "loan-7", Lender := "lenderA", Borrower := "",
            StartDate := 20230101, Amount := 1000, EndDate := 20240101,
            BorrowerAddress := "", InvestorAddress := "", PaymentHashes := [],
            state := 0 } ∧
    (0 : State) ≠ ISSUED := by
  exact ⟨rfl, by decide⟩

/-- C2 amended: for every id not present in the ledger, `CreateAsset`
succeeds and an immediately following `ReadAsset` returns an asset whose
`Lender` is the identity resolved at creation and whose other public fields
are as supplied — but whose `state` is the zero value `0` rather than
`ISSUED`, because the unexported `state` field is dropped by serialization
(the asset is constructed with `state = ISSUED` only in memory, before the
write). -/
theorem createRead_c2_amended (ident : String) (l : Ledger) (id : String)
    (start stop amount : Int) (habs : getState l id = none) :
    (CreateAsset (some ident) l id start stop amount).2 = none ∧
    (ReadAsset (CreateAsset (some ident) l id start stop amount).1 id).2 =
      .ok { ID := id, Lender := ident, Borrower := "", StartDate := start,
            Amount := amount, EndDate := stop, BorrowerAddress := "",
            InvestorAddress := "", PaymentHashes := [], state := 0 } := by
  rw [createAsset_ok ident l id start stop amount habs]
  refine ⟨rfl, ?_⟩
  have hg := getState_putState_self l id (marshalAsset
    { ID := id, Lender := ident, Borrower := "", StartDate := start,
      Amount := amount, EndDate := stop, BorrowerAddress := "",
      InvestorAddress := "", PaymentHashes := [], state := ISSUED })
  simp [ReadAsset, hg, unmarshal_marshal]

theorem createRead_c2_amended_witness :
    (CreateAsset (some "lenderA") [] "loan-7" 20230101 20240101 1000).2 = none ∧
    (ReadAsset (CreateAsset (some "lenderA") [] "loan-7" 20230101 20240101 1000).1
        "loan-7").2 =
      .ok { ID := "loan-7", Lender := "lenderA", Borrower := "",
            StartDate := 20230101, Amount := 1000, EndDate := 20240101,
            BorrowerAddress := "", InvestorAddress := "", PaymentHashes := [],
            state := 0 } :=
  createRead_c2_amended "lenderA" [] "loan-7" 20230101 20240101 1000 rfl

/-- C1 (on the embedding that resolves the source's compile-error assignment
`asset.Owner = newOwner` to the `Borrower` field, per the spec): transferring
a present, decodable asset rewrites exactly the borrower field of the stored
record and succeeds; the decoded asset's state is never `REDEEMED` (the state
is not serialized, so deserialized assets always carry the zero state, and no
redeemed-rejection ever fires — the code contains no such check); a transfer
on an absent id propagates not-found and leaves the ledger unchanged. -/
theorem transferAsset_c1 (l : Ledger) (id nb k : String) (r : JObj) (a : Asset)
    (hr : getState l id = some r) (ha : unmarshalAsset r = some a)
    (hk : getState l k = none) :
    TransferAsset l id nb =
      (putState l id (marshalAsset { a with Borrower := nb }), none) ∧
    a.state ≠ REDEEMED ∧
    TransferAsset l k nb = (l, some (CCErr.notFound k)) := by
  refine ⟨?_, ?_, ?_⟩
  · simp [TransferAsset, ReadAsset, hr, ha]
  · rw [unmarshal_state_eq_zero r a ha]
    decide
  · simp [TransferAsset, ReadAsset, hk]

theorem transferAsset_c1_witness :
    TransferAsset [("x", marshalAsset zeroAsset)] "x" "bob" =
      (putState [("x", marshalAsset zeroAsset)] "x"
        (marshalAsset { zeroAsset with Borrower := "bob" }), none) ∧
    zeroAsset.state ≠ REDEEMED ∧
    TransferAsset [("x", marshalAsset zeroAsset)] "ghost" "bob" =
      ([("x", marshalAsset zeroAsset)], some (CCErr.notFound "ghost")) :=
  transferAsset_c1 [("x", marshalAsset zeroAsset)] "x" "bob" "ghost"
    (marshalAsset zeroAsset) zeroAsset rfl rfl rfl

theorem initLoop_keys_nodup (idents : Nat → Option String) (seeds : List Asset) :
    ∀ (n : Nat) (l : Ledger), (l.map Prod.fst).Nodup →
      (((initLoop idents seeds n l).1).map Prod.fst).Nodup := by
  induction seeds with
  | nil =>
      intro n l h
      simpa [initLoop] using h
  | cons a rest ih =>
      intro n l h
      unfold initLoop
      cases hi : idents n with
      | none => simpa [submittingClientIdentity, hi] using h
      | some c =>
          simp only [submittingClientIdentity, hi]
          exact ih (n + 1) _ (keys_putState_nodup _ _ _ h)

/-- C9 counterexample: `CreateAsset` performs no validation of the id, so on
a ledger not containing the empty-string key it succeeds for `id = ""` and
stores an asset whose `ID` field is the empty string — refuting the claim
that `CreateAsset` never stores an asset with an empty id. -/
theorem createEmptyID_c9_counterexample :
    (CreateAsset (some "lenderA") [] "" 1 2 3).2 = none ∧
    getState (CreateAsset (some "lenderA") [] "" 1 2 3).1 "" =
      some (marshalAsset
        { ID := "", Lender := "lenderA", Borrower := "", StartDate := 1,
          Amount := 3, EndDate := 2, BorrowerAddress := "",
          InvestorAddress := "", PaymentHashes := [], state := ISSUED }) := by
  constructor <;> rfl

/-- C9 amended: in every ledger state reachable through the service's
operations each asset id keys at most one live record (the key set stays
duplicate-free); the non-emptiness half of the claimed invariant is not
enforced by the code, which accepts the empty string as an id. -/
theorem reach_uniqueKeys_c9 (l : Ledger) (h : Reach l) :
    (l.map Prod.fst).Nodup := by
  induction h with
  | empty => simp
  | create ident l id start stop amount hl ih =>
      unfold CreateAsset
      by_cases hex : (AssetExists l id).2
      · simpa [hex] using ih
      · cases ident with
        | none => simpa [hex, submittingClientIdentity] using ih
        | some c =>
            simp only [hex, submittingClientIdentity, Bool.false_eq_true, if_false]
            exact keys_putState_nodup l id _ ih
  | del l id hl ih =>
      unfold DeleteAsset
      by_cases hex : (AssetExists l id).2
      · simp only [hex, if_true]
        exact keys_delState_nodup l id ih
      · simpa [hex] using ih
  | transfer l id nb hl ih =>
      unfold TransferAsset
      cases hr : (ReadAsset l id).2 with
      | error e => simpa using ih
      | ok asset => exact keys_putState_nodup l id _ ih
  | seed idents l hl ih => exact initLoop_keys_nodup idents seedAssets 0 l ih

theorem reach_uniqueKeys_c9_witness :
    (((CreateAsset (some "lenderA") [] "a" 1 2 3).1).map Prod.fst).Nodup :=
  reach_uniqueKeys_c9 (CreateAsset (some "lenderA") [] "a" 1 2 3).1
    (Reach.create (some "lenderA") [] "a" 1 2 3 Reach.empty)

/-- C8: when all six per-iteration identity resolutions succeed with the same
resolved identity, `InitLedger` writes exactly the six preset seed records
(each forced to `ISSUED` and attributed to the resolved identity) and
succeeds; when the resolution of iteration `k` is the first to fail, it
aborts with the identity error, leaving exactly the first `k` seed writes
committed (no rollback of prior writes). -/
theorem initLedger_c8 (idents : Nat → Option String) (l : Ledger) (c : String)
    (k : Nat) :
    ((∀ n, n < 6 → idents n = some c) →
        InitLedger idents l = (seedUpTo c 6 l, none)) ∧
    (k < 6 → (∀ n, n < k → idents n = some c) → idents k = none →
        InitLedger idents l = (seedUpTo c k l, some CCErr.identityError)) := by
  constructor
  · intro h
    have h0 := h 0 (by omega)
    have h1 := h 1 (by omega)
    have h2 := h 2 (by omega)
    have h3 := h 3 (by omega)
    have h4 := h 4 (by omega)
    have h5 := h 5 (by omega)
    simp [InitLedger, seedAssets, initLoop, h0, h1, h2, h3, h4, h5,
      submittingClientIdentity, seedUpTo, setIssued, zeroAsset]
  · intro hk hlt hnone
    interval_cases k
    · simp [InitLedger, seedAssets, initLoop, hnone,
        submittingClientIdentity, seedUpTo]
    · have h0 := hlt 0 (by omega)
      simp [InitLedger, seedAssets, initLoop, h0, hnone,
        submittingClientIdentity, seedUpTo, setIssued, zeroAsset]
    · have h0 := hlt 0 (by omega)
      have h1 := hlt 1 (by omega)
      simp [InitLedger, seedAssets, initLoop, h0, h1, hnone,
        submittingClientIdentity, seedUpTo, setIssued, zeroAsset]
    · have h0 := hlt 0 (by omega)
      have h1 := hlt 1 (by omega)
      have h2 := hlt 2 (by omega)
      simp [InitLedger, seedAssets, initLoop, h0, h1, h2, hnone,
        submittingClientIdentity, seedUpTo, setIssued, zeroAsset]
    · have h0 := hlt 0 (by omega)
      have h1 := hlt 1 (by omega)
      have h2 := hlt 2 (by omega)
      have h3 := hlt 3 (by omega)
      simp [InitLedger, seedAssets, initLoop, h0, h1, h2, h3, hnone,
        submittingClientIdentity, seedUpTo, setIssued, zeroAsset]
    · have h0 := hlt 0 (by omega)
      have h1 := hlt 1 (by omega)
      have h2 := hlt 2 (by omega)
      have h3 := hlt 3 (by omega)
      have h4 := hlt 4 (by omega)
      simp [InitLedger, seedAssets, initLoop, h0, h1, h2, h3, h4, hnone,
        submittingClientIdentity, seedUpTo, setIssued, zeroAsset]

theorem initLedger_c8_witness :
    InitLedger (fun _ => some "clientA") [] = (seedUpTo "clientA" 6 [], none) ∧
    InitLedger (fun n => if n < 2 then some "clientA" else none) [] =
      (seedUpTo "clientA" 2 [], some CCErr.identityError) :=
  ⟨(initLedger_c8 (fun _ => some "clientA") [] "clientA" 0).1 (fun n _ => rfl),
   (initLedger_c8 (fun n => if n < 2 then some "clientA" else none) [] "clientA" 2).2
     (by omega) (fun n hn => by simp [hn]) (by simp)⟩
